import Mathlib

/-!
# Verification of the sales reconciliation pipeline (`src/app.py`)

Shallow embedding of the data pipeline of `app.py`:

* `process_data` (lines 45-103): batch concatenation, itemId string
  normalization (`astype(str)`), numeric coercion (`pd.to_numeric`,
  `errors='coerce'`, modelled with exact rationals), date parsing
  (`pd.to_datetime(format="%d-%b-%Y", errors='coerce')` followed by
  `dropna`), left join on `Item Id`, `Total Sales = Qty * Sale Price`
  then `fillna(0)`.
* the filter block of `main` (lines 156-166 and 206-209),
* the groupby / pivot summaries of `main` (lines 176-264),
* the column bookkeeping leading to the CSV export (lines 248-278).

Missing numeric cells (`NaN` after coercion) are modelled as `none`;
numeric values are exact rationals (all claim-relevant values are small
integers, where float64 arithmetic is exact).
-/

/-- Calendar date, `(year, month, day)`, as produced by parsing
`DD-MMM-YYYY` values. -/
structure Date where
  year : Nat
  month : Nat
  day : Nat
deriving DecidableEq, Repr

/-- Gregorian leap year test. -/
def isLeap (y : Nat) : Bool :=
  (y % 4 == 0 && y % 100 != 0) || y % 400 == 0

/-- Number of days in a month (1-12) of a given year. -/
def daysInMonth (y m : Nat) : Nat :=
  if m = 2 then (if isLeap y then 29 else 28)
  else if m = 4 ∨ m = 6 ∨ m = 9 ∨ m = 11 then 30
  else 31

/-- Days in the months of year `y` strictly before month `m`. -/
def daysBeforeMonth (y : Nat) : Nat → Nat
  | 0 => 0
  | 1 => 0
  | n + 1 => daysBeforeMonth y n + daysInMonth y n

/-- Day index of a date in the proleptic Gregorian calendar:
day 0 is 01-Jan-0001 (a Monday). -/
def Date.dayNumber (dt : Date) : Nat :=
  365 * (dt.year - 1) + (dt.year - 1) / 4 - (dt.year - 1) / 100
    + (dt.year - 1) / 400 + daysBeforeMonth dt.year dt.month + (dt.day - 1)

/-- Weekday, 0 = Monday .. 6 = Sunday (Python `date.weekday` convention). -/
def Date.weekday (dt : Date) : Nat := dt.dayNumber % 7

/-- Lexicographic `≤` on dates, the order used by Python `datetime.date`
comparisons (`df['Date'].dt.date >= date_range[0]` etc.). -/
def dateLe (a b : Date) : Bool :=
  a.year < b.year ||
    (a.year == b.year &&
      (a.month < b.month || (a.month == b.month && a.day ≤ b.day)))

/-- Strict lexicographic `<` on dates. -/
def dateLt (a b : Date) : Bool :=
  a.year < b.year ||
    (a.year == b.year &&
      (a.month < b.month || (a.month == b.month && a.day < b.day)))

theorem dateLe_trans {a b c : Date} (h1 : dateLe a b = true)
    (h2 : dateLe b c = true) : dateLe a c = true := by
  simp only [dateLe, Bool.or_eq_true, Bool.and_eq_true, decide_eq_true_eq,
    beq_iff_eq] at *
  omega

theorem dateLt_not_le {a b : Date} (h : dateLt b a = true) :
    dateLe a b = false := by
  simp only [dateLt, dateLe, Bool.or_eq_false_iff, Bool.or_eq_true,
    Bool.and_eq_true, Bool.and_eq_false_iff, decide_eq_true_eq,
    decide_eq_false_iff_not, beq_iff_eq, beq_eq_false_iff_ne, ne_eq] at *
  omega

/-- Split a character list on a separator character
(model of `str.split` used for the date-format fields). -/
def splitOnChar (sep : Char) : List Char → List (List Char)
  | [] => [[]]
  | c :: cs =>
    let rest := splitOnChar sep cs
    if c = sep then [] :: rest
    else match rest with
      | [] => [[c]]
      | g :: gs => (c :: g) :: gs

/-- Decimal digit test. -/
def isDigit (c : Char) : Bool := '0' ≤ c && c ≤ '9'

/-- Digit list to number, most significant first. -/
def digitsToNat : List Char → Nat → Nat
  | [], acc => acc
  | c :: cs, acc => digitsToNat cs (acc * 10 + (c.toNat - '0'.toNat))

/-- Parse a nonempty all-digit character list. -/
def parseNat (cs : List Char) : Option Nat :=
  if cs ≠ [] ∧ cs.all isDigit then some (digitsToNat cs 0) else none

/-- English month abbreviations matched by `strptime`'s `%b`
(C locale, as used by `pd.to_datetime(format="%d-%b-%Y")`). -/
def monthAbbrevs : List String :=
  ["Jan", "Feb", "Mar", "Apr", "May", "Jun",
   "Jul", "Aug", "Sep", "Oct", "Nov", "Dec"]

/-- Month abbreviation to month number (1-12). -/
def parseMonth (cs : List Char) : Option Nat :=
  match (monthAbbrevs.map String.toList).indexOf cs with
  | 12 => none
  | i => some (i + 1)

/-- Model of `pd.to_datetime(s, format="%d-%b-%Y", errors='coerce')` on a
single cell: day (1-2 digits), dash, month abbreviation, dash, 4-digit
year, with the day validated against the month length; any mismatch
yields `none` (`NaT`). -/
def parseDate (s : String) : Option Date :=
  match splitOnChar '-' s.toList with
  | [ds, ms, ys] =>
    match parseNat ds, parseMonth ms, parseNat ys with
    | some d, some m, some y =>
      if ds.length ≤ 2 ∧ ys.length = 4 ∧ 1 ≤ d ∧ d ≤ daysInMonth y m
      then some ⟨y, m, d⟩ else none
    | _, _, _ => none
  | _ => none

/-- A raw spreadsheet cell as delivered by `get_all_records`: either a
string or an integer (numeric cells arrive as numbers). -/
inductive RawCell where
  | s (v : String)
  | n (v : Int)
deriving DecidableEq, Repr

/-- Decimal representation of a natural number (fuel-based so that it
reduces in the kernel). -/
def natStrAux : Nat → Nat → List Char
  | 0, _ => []
  | fuel + 1, n =>
    if n < 10 then [Char.ofNat ('0'.toNat + n)]
    else natStrAux fuel (n / 10) ++ [Char.ofNat ('0'.toNat + n % 10)]

/-- Decimal string of a natural number. -/
def natStr (n : Nat) : String := ⟨natStrAux (n + 1) n⟩

/-- Model of Python `str()` on an integer cell. -/
def intStr (k : Int) : String :=
  if k < 0 then "-" ++ natStr k.natAbs else natStr k.natAbs

/-- Model of `astype(str)` on one cell: the canonical string form of the
`Item Id` used on both sides of the join (lines 54-55). -/
def normCell : RawCell → String
  | .s v => v
  | .n k => intStr k

/-- Parse an unsigned decimal literal `digits[.digits]` as a rational. -/
def parseUnsignedDec (cs : List Char) : Option ℚ :=
  match splitOnChar '.' cs with
  | [intPart] =>
    (parseNat intPart).map (fun n => (n : ℚ))
  | [intPart, fracPart] =>
    if (intPart ≠ [] ∨ fracPart ≠ []) ∧ intPart.all isDigit ∧
        fracPart.all isDigit
    then some (mkRat (digitsToNat (intPart ++ fracPart) 0)
                     (10 ^ fracPart.length))
    else none
  | _ => none

/-- Model of `pd.to_numeric(v, errors='coerce')` on a string cell:
an optionally signed decimal literal; anything else becomes `none`
(`NaN`). -/
def parseNumeric (s : String) : Option ℚ :=
  match s.toList with
  | '-' :: rest => (parseUnsignedDec rest).map (fun q => -q)
  | '+' :: rest => parseUnsignedDec rest
  | cs => parseUnsignedDec cs

/-- Model of `pd.to_numeric(c, errors='coerce')` on a raw cell: numbers
pass through, strings are parsed. -/
def toNumeric : RawCell → Option ℚ
  | .n k => some (k : ℚ)
  | .s v => parseNumeric v

/-- One raw sales row, with the columns `process_data` reads from the
sales sheets: `Date`, `Item Id`, `City`, `Brand`, `Qty`. -/
structure RawSalesRow where
  date : String
  itemId : RawCell
  city : String
  brand : String
  qty : RawCell
deriving DecidableEq, Repr

/-- One raw product-catalog row, with the columns selected at line 87. -/
structure RawProductRow where
  itemId : RawCell
  sku : String          -- catalog column `DesiDiya - SKU`
  categoryName : String
  subCategoryName : String
  salePrice : RawCell
  platform : String
deriving DecidableEq, Repr

/-- A normalized sales record: parsed date, string itemId, coerced
quantity (rows whose date failed to parse have been dropped). -/
structure SalesRecord where
  date : Date
  itemId : String
  city : String
  brand : String
  qty : Option ℚ
deriving DecidableEq, Repr

/-- A normalized catalog record: string itemId, coerced sale price. -/
structure ProductRec where
  itemId : String
  sku : String
  categoryName : String
  subCategoryName : String
  salePrice : Option ℚ
  platform : String
deriving DecidableEq, Repr

/-- One row of the merged DataFrame. Catalog-derived fields are `none`
when the sales row had no catalog match (left-join `NaN`s). -/
structure EnrichedRecord where
  date : Date
  itemId : String
  city : String
  brand : String
  qty : Option ℚ
  productName : Option String
  categoryName : Option String
  subCategoryName : Option String
  salePrice : Option ℚ
  platform : Option String
  totalSales : ℚ
deriving DecidableEq, Repr

/-- Normalization of the concatenated sales rows (lines 47-78):
itemId `astype(str)`, `Qty` via `to_numeric`, `Date` parsed with format
`%d-%b-%Y`, and rows with an unparseable date dropped (`dropna`). -/
def normalizeSales (rows : List RawSalesRow) : List SalesRecord :=
  rows.filterMap (fun r =>
    (parseDate r.date).map (fun d =>
      ⟨d, normCell r.itemId, r.city, r.brand, toNumeric r.qty⟩))

/-- All valid sales records of a list of batches (`pd.concat` then
normalization). -/
def salesRecords (batches : List (List RawSalesRow)) : List SalesRecord :=
  normalizeSales batches.flatten

/-- Catalog normalization (lines 55, 60): itemId `astype(str)`,
`Sale Price` via `to_numeric`. -/
def normalizeCatalog (catalog : List RawProductRow) : List ProductRec :=
  catalog.map (fun p =>
    ⟨normCell p.itemId, p.sku, p.categoryName, p.subCategoryName,
      toNumeric p.salePrice, p.platform⟩)

/-- The enriched records produced for one sales record by
`pd.merge(..., on='Item Id', how='left')` (lines 86-88): one output row
per catalog match, in catalog order; a single row with null catalog
fields when there is no match.  `totalSales` is filled by `addTotal`
afterwards, so it is 0 here. -/
def matchRows (s : SalesRecord) (catalog : List ProductRec) :
    List EnrichedRecord :=
  match catalog.filter (fun p => p.itemId == s.itemId) with
  | [] => [⟨s.date, s.itemId, s.city, s.brand, s.qty,
            none, none, none, none, none, 0⟩]
  | ms => ms.map (fun p =>
      ⟨s.date, s.itemId, s.city, s.brand, s.qty,
        some p.sku, some p.categoryName, some p.subCategoryName,
        p.salePrice, some p.platform, 0⟩)

/-- Left join of the normalized sales records against the normalized
catalog, preserving sales-row order (lines 86-88). -/
def leftJoin : List SalesRecord → List ProductRec → List EnrichedRecord
  | [], _ => []
  | s :: rest, catalog => matchRows s catalog ++ leftJoin rest catalog

/-- Model of `Total Sales = Qty * Sale Price` with `NaN` propagation, then
`fillna(0)` (lines 91-94). -/
def totalOf : Option ℚ → Option ℚ → ℚ
  | some q, some p => q * p
  | _, _ => 0

/-- Fills the derived `Total Sales` column of one merged row. -/
def addTotal (e : EnrichedRecord) : EnrichedRecord :=
  { e with totalSales := totalOf e.qty e.salePrice }

/-- Model of `process_data` (lines 45-103): concatenate the sales
batches, normalize, drop invalid dates, return the empty signal when
nothing survives, otherwise left-join against the catalog and compute
`Total Sales`. -/
def process_data (salesBatches : List (List RawSalesRow))
    (catalog : List RawProductRow) : List EnrichedRecord :=
  let sales := salesRecords salesBatches
  if sales.isEmpty then []
  else (leftJoin sales (normalizeCatalog catalog)).map addTotal

/-- The rejected-row count computed at line 70 (`nat_count`): rows of
the concatenated batches whose `Date` fails to parse.  It is only
printed (lines 72-75), never returned. -/
def rejectCount (salesBatches : List (List RawSalesRow)) : Nat :=
  salesBatches.flatten.countP (fun r => (parseDate r.date).isNone)

/-- First-stage filter mask (lines 161-166): city membership, category
membership, inclusive date-range bounds, as one conjunctive boolean
mask.  The category options (`df['Category Name'].unique()`) can include
the missing value, hence `List (Option String)`. -/
def firstStagePred (cities : List String) (cats : List (Option String))
    (d1 d2 : Date) (r : EnrichedRecord) : Bool :=
  decide (r.city ∈ cities) && decide (r.categoryName ∈ cats) &&
    dateLe d1 r.date && dateLe r.date d2

/-- The first-stage filtered DataFrame `filtered_df` (lines 161-166). -/
def firstStage (df : List EnrichedRecord) (cities : List String)
    (cats : List (Option String)) (d1 d2 : Date) : List EnrichedRecord :=
  df.filter (firstStagePred cities cats d1 d2)

/-- Platform mask of the second filter pass (line 209). -/
def platformPred (platforms : List (Option String)) (r : EnrichedRecord) :
    Bool :=
  decide (r.platform ∈ platforms)

/-- The second filter pass producing `table_df` (line 209): platform
membership applied on top of the already-filtered set. -/
def secondStage (df : List EnrichedRecord)
    (platforms : List (Option String)) : List EnrichedRecord :=
  df.filter (platformPred platforms)

/-- Outcome of the date-range validation and filter block of `main`
(lines 156-171): a non-2-element range is rejected before any filtering
(line 156, warning and return); otherwise the filter runs and an empty
result takes the no-match branch (line 170). -/
inductive FilterOutcome where
  | invalidRange
  | noMatch
  | ok (rows : List EnrichedRecord)
deriving DecidableEq, Repr

/-- The filter block of `main` (lines 156-171). -/
def runFilter (df : List EnrichedRecord) (dateRange : List Date)
    (cities : List String) (cats : List (Option String)) :
    FilterOutcome :=
  match dateRange with
  | [d1, d2] =>
    let f := firstStage df cities cats d1 d2
    if f.isEmpty then .noMatch else .ok f
  | _ => .invalidRange

/-- Sum of a rational-valued column over a list of rows. -/
def sumCol (val : α → ℚ) (l : List α) : ℚ := (l.map val).sum

/-- Model of `groupby(key)[col].sum()`: one output row per distinct non-null key
(pandas drops rows whose group key is `NaN`), carrying the sum of `val`
over the rows with that key.  Group order is immaterial to the claims
below; the displayed order is applied separately where the source
sorts. -/
def groupSum (key : α → Option κ) [DecidableEq κ] (val : α → ℚ)
    (l : List α) : List (κ × ℚ) :=
  (l.filterMap key).dedup.map
    (fun k => (k, sumCol val (l.filter (fun r => key r == some k))))

/-- Model of a two-metric `groupby(key).agg` (qty sum, sales sum): per
distinct non-null key, the quantity sum (missing quantities summed as 0,
pandas `skipna`) and the total-sales sum. -/
def groupAgg (key : EnrichedRecord → Option κ) [DecidableEq κ]
    (l : List EnrichedRecord) : List (κ × ℚ × ℚ) :=
  (l.filterMap key).dedup.map
    (fun k =>
      let g := l.filter (fun r => key r == some k)
      (k, sumCol (fun r => (r.qty.getD 0)) g, sumCol (·.totalSales) g))

/-- KPI `total_sales` (line 177). -/
def kpiTotalSales (l : List EnrichedRecord) : ℚ := sumCol (·.totalSales) l

/-- KPI `total_qty` (line 180; pandas sum skips `NaN`). -/
def kpiTotalQty (l : List EnrichedRecord) : ℚ :=
  sumCol (fun r => (r.qty.getD 0)) l

/-- KPI `total_orders` (line 183). -/
def kpiTotalOrders (l : List EnrichedRecord) : Nat := l.length

/-- Model of `city_sales` (line 193): sales sum grouped by city. -/
def citySales (l : List EnrichedRecord) : List (String × ℚ) :=
  groupSum (fun r => some r.city) (·.totalSales) l

/-- Model of `category_sales` (line 199): sales sum grouped by catalog category;
rows with no catalog match have a null key and are dropped by
`groupby`. -/
def categorySales (l : List EnrichedRecord) : List (String × ℚ) :=
  groupSum (·.categoryName) (·.totalSales) l

/-- Model of `sku_summary` (line 225): qty and sales sums grouped by product
name (null keys dropped). -/
def skuSummary (l : List EnrichedRecord) : List (String × ℚ × ℚ) :=
  groupAgg (·.productName) l

/-- Model of `platform_summary` (line 230): qty and sales sums grouped by
platform (null keys dropped). -/
def platformSummary (l : List EnrichedRecord) : List (String × ℚ × ℚ) :=
  groupAgg (·.platform) l

/-- Model of `brand_summary` (line 237): qty and sales sums grouped by brand. -/
def brandSummary (l : List EnrichedRecord) : List (String × ℚ × ℚ) :=
  groupAgg (fun r => some r.brand) l

/-- Model of `time_sales` (line 244): sales sum grouped by calendar day. -/
def timeSales (l : List EnrichedRecord) : List (Date × ℚ) :=
  groupSum (fun r => some r.date) (·.totalSales) l

/-- One cell of the Product×Platform pivot (lines 216-217): sums over
the rows with the given non-null product name and platform
(`fill_value=0` for empty combinations). -/
def pivotCell (l : List EnrichedRecord) (pn pl : String) : ℚ × ℚ :=
  let g := l.filter
    (fun r => r.productName == some pn && r.platform == some pl)
  (sumCol (fun r => (r.qty.getD 0)) g, sumCol (·.totalSales) g)

/-- Model of `pivot_combined` (lines 216-220), as row key × (column key × cell):
rows indexed by the distinct non-null product names, columns by the
distinct non-null platforms (`pivot_table` drops null index/column
entries). -/
def pivotCombined (l : List EnrichedRecord) :
    List (String × List (String × ℚ × ℚ)) :=
  (l.filterMap (·.productName)).dedup.map
    (fun pn => (pn, (l.filterMap (·.platform)).dedup.map
      (fun pl => (pl, pivotCell l pn pl))))

/-- Lexicographic comparison of character lists by code point, the
order Python string comparison (and hence `sort_values` on a string
column) uses. -/
def lexLe : List Char → List Char → Bool
  | [], _ => true
  | _ :: _, [] => false
  | a :: as, b :: bs =>
    if a.toNat = b.toNat then lexLe as bs else decide (a.toNat < b.toNat)

/-- Lexicographic string order (model of Python `str` comparison). -/
def strLe (a b : String) : Prop := lexLe a.toList b.toList = true

instance : DecidableRel strLe := fun a b =>
  instDecidableEqBool (lexLe a.toList b.toList) true

theorem lexLe_total (a b : List Char) : lexLe a b = true ∨ lexLe b a = true := by
  induction a generalizing b with
  | nil => exact .inl rfl
  | cons x xs ih =>
    cases b with
    | nil => exact .inr rfl
    | cons y ys =>
      by_cases hxy : x.toNat = y.toNat
      · have h' := ih ys
        simp only [lexLe, if_pos hxy, if_pos hxy.symm]
        exact h'
      · rcases Nat.lt_or_ge x.toNat y.toNat with h | h
        · left
          simp [lexLe, hxy, h]
        · right
          have hyx : ¬ y.toNat = x.toNat := fun e => hxy e.symm
          have : y.toNat < x.toNat := by omega
          simp [lexLe, hyx, this]

theorem lexLe_trans {a b c : List Char} (h1 : lexLe a b = true)
    (h2 : lexLe b c = true) : lexLe a c = true := by
  induction a generalizing b c with
  | nil => rfl
  | cons x xs ih =>
    cases b with
    | nil => simp [lexLe] at h1
    | cons y ys =>
      cases c with
      | nil => simp [lexLe] at h2
      | cons z zs =>
        by_cases hxy : x.toNat = y.toNat <;> by_cases hyz : y.toNat = z.toNat
        · have hxz : x.toNat = z.toNat := hxy.trans hyz
          simp only [lexLe, if_pos hxy] at h1
          simp only [lexLe, if_pos hyz] at h2
          simp only [lexLe, if_pos hxz]
          exact ih h1 h2
        · have hxz : ¬ x.toNat = z.toNat := by omega
          simp only [lexLe, if_pos hxy] at h1
          simp only [lexLe, if_neg hyz, decide_eq_true_eq] at h2
          have : x.toNat < z.toNat := by omega
          simp [lexLe, hxz, this]
        · have hxz : ¬ x.toNat = z.toNat := by omega
          simp only [lexLe, if_neg hxy, decide_eq_true_eq] at h1
          have : x.toNat < z.toNat := by omega
          simp [lexLe, hxz, this]
        · simp only [lexLe, if_neg hxy, if_neg hyz, decide_eq_true_eq] at h1 h2
          have hxz : ¬ x.toNat = z.toNat := by omega
          have : x.toNat < z.toNat := by omega
          simp [lexLe, hxz, this]

instance : IsTotal String strLe := ⟨fun a b => lexLe_total a.toList b.toList⟩

instance : IsTrans String strLe := ⟨fun _ _ _ => lexLe_trans⟩

/-- English month names produced by `strftime('%B')`. -/
def monthNames : List String :=
  ["January", "February", "March", "April", "May", "June",
   "July", "August", "September", "October", "November", "December"]

/-- The `Month Name` column (line 248):
`table_df['Date'].dt.strftime('%B %Y')`. -/
def monthLabel (dt : Date) : String :=
  (monthNames.getD (dt.month - 1) "") ++ " " ++ natStr dt.year

/-- Model of `monthly_summary` (lines 248-251): group by the `'%B %Y'` label,
sum qty and sales, then `sort_values(by='Month Name')` — a plain
lexicographic string sort of the labels. -/
def monthlySummary (l : List EnrichedRecord) : List (String × ℚ × ℚ) :=
  ((groupAgg (fun r => some (monthLabel r.date)) l).map Prod.fst).insertionSort
      strLe
    |>.map (fun k =>
      let g := l.filter (fun r => monthLabel r.date == k)
      (k, sumCol (fun r => (r.qty.getD 0)) g, sumCol (·.totalSales) g))

/-- The `Week Start` column (line 255):
`table_df['Date'].dt.to_period('W-MON').apply(lambda x: x.start_time)`.
A pandas `W-MON` period is a week *ending* on Monday, so its start is
the Tuesday on or before the date; the result is given as a proleptic
day index. -/
def weekStartCode (dt : Date) : Nat :=
  dt.dayNumber - (dt.weekday + 6) % 7

/-- The Monday on or before a date (start of its ISO, Monday-start,
week), as a day index: what the spec's weekly view prescribes. -/
def mondayStart (dt : Date) : Nat := dt.dayNumber - dt.weekday

/-- Day index of the Thursday of the Monday-start week of a date, the
day that determines ISO week numbering. -/
def isoThursday (dt : Date) : Nat := mondayStart dt + 3

/-- Day index of 01-Jan of a year. -/
def yearStart (y : Nat) : Nat := Date.dayNumber ⟨y, 1, 1⟩

/-- The ISO week-numbering year of a date: the calendar year containing
the Thursday of its Monday-start week. -/
def isoWeekYear (dt : Date) : Nat :=
  if isoThursday dt < yearStart dt.year then dt.year - 1
  else if yearStart (dt.year + 1) ≤ isoThursday dt then dt.year + 1
  else dt.year

/-- Model of `dt.isocalendar().week`: the ISO 8601 week number, the
index of the Monday-start week within the ISO week-numbering year. -/
def isoWeek (dt : Date) : Nat :=
  (isoThursday dt - yearStart (isoWeekYear dt)) / 7 + 1

/-- The `Month Week` column (line 256):
`strftime('%B %Y') + ' Week ' + isocalendar().week`. -/
def monthWeekLabel (dt : Date) : String :=
  monthLabel dt ++ " Week " ++ natStr (isoWeek dt)

/-- Model of `weekly_summary` (lines 257-259): group by the
`(Month Week, Week Start)` pair, sum qty and sales, then
`sort_values(by='Week Start')` — the rows ordered by week-start
ascending. -/
def weeklySummary (l : List EnrichedRecord) :
    List ((String × Nat) × ℚ × ℚ) :=
  (groupAgg (fun r => some (monthWeekLabel r.date, weekStartCode r.date))
      l).insertionSort (fun a b => a.1.2 ≤ b.1.2)

/-- Model of `city_summary` (line 263, the By Location view): qty and
sales sums grouped by city. -/
def citySummary (l : List EnrichedRecord) : List (String × ℚ × ℚ) :=
  groupAgg (fun r => some r.city) l

/-- Columns of the concatenated sales DataFrame that the pipeline
reads, in sheet order (§ the code reads `Date`, `Item Id`, `City`,
`Brand`, `Qty`; `Platform` is attached from the catalog by the join,
line 87, and read as a single post-merge column at lines 206-209). -/
def salesColumns : List String := ["Date", "Item Id", "City", "Brand", "Qty"]

/-- The catalog columns selected for the merge (line 87). -/
def productSelectedColumns : List String :=
  ["Item Id", "DesiDiya - SKU", "Category Name", "Sub-Category Name",
   "Sale Price", "Platform"]

/-- Columns of `merged_df` after the left join (lines 86-88: left
columns, then the right columns minus the join key), the `Total Sales`
column appended at line 91, and the rename of `DesiDiya - SKU` to
`Product Name` at line 97. -/
def mergedColumns : List String :=
  (salesColumns ++ productSelectedColumns.filter (fun c => c ≠ "Item Id")
      ++ ["Total Sales"]).map
    (fun c => if c = "DesiDiya - SKU" then "Product Name" else c)

/-- Columns of `table_df` at the moment of the CSV export (line 272):
the merged columns plus the derived columns added for tables 5 and 6
(`Month Name` line 248, `Week Start` line 255, `Month Week` line 256). -/
def tableColumns : List String :=
  mergedColumns ++ ["Month Name", "Week Start", "Month Week"]

/-- Header row of `table_df.to_csv(index=False)` (line 272): the
DataFrame's columns, in order. -/
def csvHeaderFields : List String := tableColumns

/-- The EnrichedRecord field names, as selected for the raw-data
display at lines 270-271. -/
def enrichedFieldNames : List String :=
  ["Date", "Item Id", "City", "Brand", "Qty", "Product Name",
   "Category Name", "Sub-Category Name", "Sale Price", "Platform",
   "Total Sales"]

/-- The sales-side fields of an enriched record. -/
def salesPart (e : EnrichedRecord) : SalesRecord :=
  ⟨e.date, e.itemId, e.city, e.brand, e.qty⟩

/-- Intersection of two row lists by row identity (value equality),
keeping the order of the first. -/
def interRows (xs ys : List EnrichedRecord) : List EnrichedRecord :=
  xs.filter (fun x => decide (x ∈ ys))

section PipelineLemmas

theorem process_data_eq (b : List (List RawSalesRow))
    (c : List RawProductRow) :
    process_data b c
      = (leftJoin (salesRecords b) (normalizeCatalog c)).map addTotal := by
  unfold process_data
  cases h : salesRecords b with
  | nil => simp [leftJoin]
  | cons s rest => simp

theorem matchRows_length (s : SalesRecord) (catalog : List ProductRec) :
    (matchRows s catalog).length
      = max 1 (catalog.countP (fun p => p.itemId == s.itemId)) := by
  unfold matchRows
  rw [List.countP_eq_length_filter]
  cases h : catalog.filter (fun p => p.itemId == s.itemId) with
  | nil => simp [h]
  | cons m ms => simp [h]

theorem matchRows_ne_nil (s : SalesRecord) (catalog : List ProductRec) :
    matchRows s catalog ≠ [] := by
  intro h
  have := matchRows_length s catalog
  rw [h] at this
  simp at this
  omega

theorem mem_matchRows_salesPart {s : SalesRecord} {catalog : List ProductRec}
    {e : EnrichedRecord} (h : e ∈ matchRows s catalog) : salesPart e = s := by
  unfold matchRows at h
  cases hf : catalog.filter (fun p => p.itemId == s.itemId) with
  | nil => rw [hf] at h; simp at h; subst h; rfl
  | cons m ms =>
    rw [hf] at h
    simp only [List.mem_map] at h
    obtain ⟨p, _, rfl⟩ := h
    rfl

theorem matchRows_nomatch {s : SalesRecord} {catalog : List ProductRec}
    (h : catalog.countP (fun p => p.itemId == s.itemId) = 0) :
    matchRows s catalog
      = [⟨s.date, s.itemId, s.city, s.brand, s.qty,
          none, none, none, none, none, 0⟩] := by
  unfold matchRows
  rw [List.countP_eq_length_filter] at h
  rw [List.length_eq_zero] at h
  rw [h]

theorem matchRows_fanout {s : SalesRecord} {catalog : List ProductRec}
    (h : 1 ≤ catalog.countP (fun p => p.itemId == s.itemId)) :
    (matchRows s catalog).length
      = catalog.countP (fun p => p.itemId == s.itemId) := by
  rw [matchRows_length]
  omega

theorem leftJoin_length (sales : List SalesRecord)
    (catalog : List ProductRec) :
    (leftJoin sales catalog).length
      = (sales.map (fun s =>
          max 1 (catalog.countP (fun p => p.itemId == s.itemId)))).sum := by
  induction sales with
  | nil => rfl
  | cons s rest ih =>
    simp [leftJoin, List.length_append, ih, matchRows_length]

theorem mem_leftJoin_iff {sales : List SalesRecord}
    {catalog : List ProductRec} {e : EnrichedRecord} :
    e ∈ leftJoin sales catalog ↔ ∃ s ∈ sales, e ∈ matchRows s catalog := by
  induction sales with
  | nil => simp [leftJoin]
  | cons s rest ih => simp [leftJoin, ih]

theorem mem_process_data {b : List (List RawSalesRow)}
    {c : List RawProductRow} {e : EnrichedRecord}
    (h : e ∈ process_data b c) :
    ∃ e' ∈ leftJoin (salesRecords b) (normalizeCatalog c), e = addTotal e' := by
  rw [process_data_eq] at h
  obtain ⟨e', he', rfl⟩ := List.mem_map.mp h
  exact ⟨e', he', rfl⟩

theorem mem_process_data_total {b : List (List RawSalesRow)}
    {c : List RawProductRow} {e : EnrichedRecord}
    (h : e ∈ process_data b c) :
    e.totalSales = totalOf e.qty e.salePrice := by
  obtain ⟨e', _, rfl⟩ := mem_process_data h
  rfl

end PipelineLemmas

set_option maxRecDepth 100000

/-- Scenario 1 sales row:
`{Date:"01-Jan-2025", ItemId:"5", City:"Pune", Qty:"3", Platform:"Amazon"}`
(platform is catalog-sourced in the merged output; the brand column is
populated with a placeholder). -/
def scenario1Row : RawSalesRow := ⟨"01-Jan-2025", .s "5", "Pune", "BrandA", .s "3"⟩

/-- Scenario 1 catalog entry:
`{ItemId:"5", Name:"Widget", SalePrice:"10", Category:"Home", Platform:"Amazon"}`. -/
def scenario1Cat : RawProductRow :=
  ⟨.s "5", "Widget", "Home", "Decor", .s "10", "Amazon"⟩

/-- The single enriched record scenario 1 produces (`totalSales = 30`). -/
def scenario1Enriched : EnrichedRecord :=
  ⟨⟨2025, 1, 1⟩, "5", "Pune", "BrandA", some 3, some "Widget", some "Home",
    some "Decor", some 10, some "Amazon", 30⟩

/-- Scenario 3 sales row: `Qty:"abc"`. -/
def scenario3Row : RawSalesRow :=
  ⟨"01-Jan-2025", .s "5", "Pune", "BrandA", .s "abc"⟩

/-- The enriched record of scenario 3: quantity missing, sale price
present, `totalSales = 0`. -/
def scenario3Enriched : EnrichedRecord :=
  ⟨⟨2025, 1, 1⟩, "5", "Pune", "BrandA", none, some "Widget", some "Home",
    some "Decor", some 10, some "Amazon", 0⟩

/-- C1. For every merged record, `totalSales` equals
`quantity * salePrice`, and whenever either `quantity` or `salePrice`
is missing (non-numeric input or no catalog match), `totalSales` is `0`
rather than missing; in particular the scenario-1 row
(`Date "01-Jan-2025"`, `Qty "3"`, catalog `Sale Price "10"`) yields
`totalSales = 30`, and a row with `Qty "abc"` yields `totalSales = 0`
even though `salePrice` is present. -/
theorem totalSales_derivation :
    (∀ (b : List (List RawSalesRow)) (c : List RawProductRow)
       (e : EnrichedRecord), e ∈ process_data b c →
         (∀ q p, e.qty = some q → e.salePrice = some p →
            e.totalSales = q * p) ∧
         ((e.qty = none ∨ e.salePrice = none) → e.totalSales = 0)) ∧
    process_data [[scenario1Row]] [scenario1Cat] = [scenario1Enriched] ∧
    scenario1Enriched.totalSales = 30 ∧
    process_data [[scenario3Row]] [scenario1Cat] = [scenario3Enriched] ∧
    scenario3Enriched.qty = none ∧ scenario3Enriched.salePrice = some 10 ∧
    scenario3Enriched.totalSales = 0 := by
  refine ⟨?_, ?_, rfl, ?_, rfl, rfl, rfl⟩
  · intro b c e he
    have ht := mem_process_data_total he
    constructor
    · intro q p hq hp
      rw [ht, hq, hp]
      rfl
    · intro hmiss
      rcases hmiss with hq | hp
      · rw [ht, hq]
        cases e.salePrice <;> rfl
      · rw [ht, hp]
        cases e.qty <;> rfl
  · with_unfolding_all rfl
  · with_unfolding_all rfl

/-- Witness for C1: totals evaluated at the scenario inputs by applying
the theorem to the concrete enriched records. -/
theorem totalSales_derivation_witness :
    scenario1Enriched.totalSales = 3 * 10 ∧ scenario3Enriched.totalSales = 0 :=
  ⟨(totalSales_derivation.1 [[scenario1Row]] [scenario1Cat] scenario1Enriched
      (by with_unfolding_all decide)).1 3 10 rfl rfl,
   (totalSales_derivation.1 [[scenario3Row]] [scenario1Cat] scenario3Enriched
      (by with_unfolding_all decide)).2 (Or.inl rfl)⟩

/-- A sales row whose `Date` (`"31-13-2025"`) does not match
`DD-MMM-YYYY` (scenario 2's invalid date). -/
def badDateRow : RawSalesRow := ⟨"31-13-2025", .s "5", "Pune", "BrandA", .s "3"⟩

theorem normalizeSales_length (rows : List RawSalesRow) :
    (normalizeSales rows).length
      + rows.countP (fun r => (parseDate r.date).isNone) = rows.length := by
  induction rows with
  | nil => rfl
  | cons r rest ih =>
    unfold normalizeSales at *
    cases h : parseDate r.date <;>
      simp [List.filterMap_cons, h, List.countP_cons] <;> omega

/-- C3, counterexample. Two inputs that differ only by a rejected
row: the pipeline's return value (`process_data`, the only thing the
caller receives, line 103) is identical for both, while the reject
count of line 70 differs — so the count of rejected rows is not
surfaced to the caller of the pipeline. -/
theorem rejectCount_not_surfaced :
    process_data [[scenario1Row], [badDateRow]] [scenario1Cat]
        = process_data [[scenario1Row]] [scenario1Cat]
      ∧ rejectCount [[scenario1Row], [badDateRow]] = 1
      ∧ rejectCount [[scenario1Row]] = 0 := by
  refine ⟨?_, ?_, ?_⟩ <;> with_unfolding_all rfl

/-- C3, amended. Every row whose `Date` value does not match
`DD-MMM-YYYY` is excluded from the normalized output (rows with
parseable dates are kept: kept + rejected = total), without raising;
the rejected-row count is computed and printed to the console for
diagnostics (line 70-75) but is not returned to the caller — the
pipeline's returned output is unchanged by rejected rows. -/
theorem dropna_excludes_unparseable :
    (∀ b : List (List RawSalesRow),
        (salesRecords b).length + rejectCount b = b.flatten.length) ∧
    (∀ (b : List (List RawSalesRow)) (c : List RawProductRow)
        (extra : List RawSalesRow),
        (∀ r ∈ extra, parseDate r.date = none) →
        process_data (b ++ [extra]) c = process_data b c) := by
  constructor
  · intro b
    exact normalizeSales_length b.flatten
  · intro b c extra h
    have hnorm : normalizeSales extra = [] := by
      unfold normalizeSales
      rw [List.filterMap_eq_nil_iff]
      intro r hr
      rw [h r hr]
      rfl
    have hsr : salesRecords (b ++ [extra]) = salesRecords b := by
      unfold salesRecords normalizeSales
      unfold normalizeSales at hnorm
      rw [List.flatten_append]
      simp [List.filterMap_append, hnorm]
    simp only [process_data, hsr]

/-- Witness for C3 (amended): the output is unchanged when a batch of
invalid-date rows is appended. -/
theorem dropna_excludes_unparseable_witness :
    process_data ([[scenario1Row]] ++ [[badDateRow]]) [scenario1Cat]
      = process_data [[scenario1Row]] [scenario1Cat] :=
  dropna_excludes_unparseable.2 [[scenario1Row]] [scenario1Cat] [badDateRow]
    (by with_unfolding_all decide)

theorem length_le_sum_map_max (l : List α) (f : α → Nat) :
    l.length ≤ (l.map (fun a => max 1 (f a))).sum := by
  induction l with
  | nil => simp
  | cons a rest ih =>
    simp only [List.map_cons, List.sum_cons, List.length_cons]
    omega

/-- C2. The merge is a left join on string-normalized itemId:
every sales record with a valid date survives the join, a sales record
whose itemId has `k ≥ 1` catalog matches produces exactly `k` enriched
records (fan-out, not deduplicated; zero matches produce one record
with null catalog fields), and the enriched record count is the sum of
`max 1 (matches)` over the sales records, hence `≥` the sales record
count. -/
theorem leftJoin_fanout :
    (∀ (b : List (List RawSalesRow)) (c : List RawProductRow),
        (process_data b c).length
          = ((salesRecords b).map (fun s =>
              max 1 ((normalizeCatalog c).countP
                (fun p => p.itemId == s.itemId)))).sum ∧
        (salesRecords b).length ≤ (process_data b c).length ∧
        ∀ s ∈ salesRecords b,
          1 ≤ (process_data b c).countP (fun e => salesPart e == s)) ∧
    (∀ (s : SalesRecord) (catalog : List ProductRec),
        1 ≤ catalog.countP (fun p => p.itemId == s.itemId) →
        (matchRows s catalog).length
          = catalog.countP (fun p => p.itemId == s.itemId)) ∧
    (∀ (s : SalesRecord) (catalog : List ProductRec),
        catalog.countP (fun p => p.itemId == s.itemId) = 0 →
        matchRows s catalog
          = [⟨s.date, s.itemId, s.city, s.brand, s.qty,
              none, none, none, none, none, 0⟩]) := by
  refine ⟨?_, @matchRows_fanout, @matchRows_nomatch⟩
  intro b c
  have hlen : (process_data b c).length
      = ((salesRecords b).map (fun s =>
          max 1 ((normalizeCatalog c).countP
            (fun p => p.itemId == s.itemId)))).sum := by
    rw [process_data_eq, List.length_map, leftJoin_length]
  refine ⟨hlen, ?_, ?_⟩
  · rw [hlen]
    exact length_le_sum_map_max _ _
  · intro s hs
    have hne := matchRows_ne_nil s (normalizeCatalog c)
    obtain ⟨e, he⟩ := List.exists_mem_of_ne_nil _ hne
    have hmem : addTotal e ∈ process_data b c := by
      rw [process_data_eq]
      exact List.mem_map_of_mem addTotal (mem_leftJoin_iff.mpr ⟨s, hs, he⟩)
    have hsp : salesPart (addTotal e) == s := by
      have := mem_matchRows_salesPart he
      simp [salesPart, addTotal] at this ⊢
      exact this
    have hpos : 0 < (process_data b c).countP (fun e => salesPart e == s) :=
      List.countP_pos_iff.mpr ⟨addTotal e, hmem, hsp⟩
    omega

/-- Scenario 4 sales row: itemId `9` (arriving as a number and
string-normalized for the join). -/
def scenario4Row : RawSalesRow := ⟨"02-Jan-2025", .n 9, "Pune", "BrandA", .s "2"⟩

/-- Scenario 4 catalog: two entries for `ItemId "9"`. -/
def scenario4Cat : List RawProductRow :=
  [⟨.s "9", "WidgetA", "Home", "Decor", .s "5", "Amazon"⟩,
   ⟨.s "9", "WidgetB", "Home", "Decor", .s "7", "Flipkart"⟩]

/-- The normalized scenario 4 sales record. -/
def scenario4Sales : SalesRecord := ⟨⟨2025, 1, 2⟩, "9", "Pune", "BrandA", some 2⟩

/-- Witness for C2 at scenario 4: the single sales row with two catalog
matches survives and produces exactly two enriched records. -/
theorem leftJoin_fanout_witness :
    1 ≤ (process_data [[scenario4Row]] scenario4Cat).countP
          (fun e => salesPart e == scenario4Sales) ∧
    (matchRows scenario4Sales (normalizeCatalog scenario4Cat)).length = 2 ∧
    (process_data [[scenario4Row]] scenario4Cat).length = 2 :=
  ⟨(leftJoin_fanout.1 [[scenario4Row]] scenario4Cat).2.2 scenario4Sales
      (by with_unfolding_all decide),
   (leftJoin_fanout.2.1 scenario4Sales (normalizeCatalog scenario4Cat)
      (by with_unfolding_all decide)).trans (by with_unfolding_all rfl),
   ((leftJoin_fanout.1 [[scenario4Row]] scenario4Cat).1).trans
      (by with_unfolding_all rfl)⟩

theorem inter_filter (l : List EnrichedRecord) (p q : EnrichedRecord → Bool) :
    interRows (l.filter p) (l.filter q) = l.filter (fun x => p x && q x) := by
  unfold interRows
  rw [List.filter_filter]
  apply List.filter_congr
  intro a ha
  by_cases hq : q a = true <;> simp [List.mem_filter, ha, hq, Bool.and_comm]

/-- C4. The first-stage filter keeps exactly the records satisfying
`city ∈ cities ∧ category ∈ categories ∧ minDate ≤ date ≤ maxDate`
(both bounds inclusive), and equals the intersection, by row identity,
of the three independently applied predicate filters; the platform
membership predicate is a separate second pass over the already
filtered set, itself an intersection with the independent platform
filter. -/
theorem filter_conjunction :
    ∀ (df : List EnrichedRecord) (cities : List String)
      (cats : List (Option String)) (d1 d2 : Date)
      (platforms : List (Option String)),
      (∀ r, r ∈ firstStage df cities cats d1 d2 ↔
        r ∈ df ∧ r.city ∈ cities ∧ r.categoryName ∈ cats ∧
          dateLe d1 r.date = true ∧ dateLe r.date d2 = true) ∧
      firstStage df cities cats d1 d2
        = interRows
            (interRows (df.filter (fun r => decide (r.city ∈ cities)))
              (df.filter (fun r => decide (r.categoryName ∈ cats))))
            (df.filter (fun r => dateLe d1 r.date && dateLe r.date d2)) ∧
      secondStage (firstStage df cities cats d1 d2) platforms
        = interRows (firstStage df cities cats d1 d2)
            (df.filter (platformPred platforms)) := by
  intro df cities cats d1 d2 platforms
  refine ⟨?_, ?_, ?_⟩
  · intro r
    simp [firstStage, firstStagePred, List.mem_filter, and_assoc]
  · rw [inter_filter, inter_filter]
    apply List.filter_congr
    intro a _
    simp [firstStagePred, Bool.and_assoc]
  · unfold secondStage interRows
    apply List.filter_congr
    intro a ha
    have hdf : a ∈ df := List.mem_of_mem_filter ha
    by_cases hp : platformPred platforms a = true <;>
      simp [List.mem_filter, hdf, hp]

/-- Witness for C4 at a concrete record set and filter spec. -/
theorem filter_conjunction_witness :
    firstStage [scenario1Enriched] ["Pune"] [some "Home"]
        ⟨2025, 1, 1⟩ ⟨2025, 12, 31⟩
      = interRows
          (interRows
            ([scenario1Enriched].filter (fun r => decide (r.city ∈ ["Pune"])))
            ([scenario1Enriched].filter
              (fun r => decide (r.categoryName ∈ [some "Home"]))))
          ([scenario1Enriched].filter
            (fun r => dateLe ⟨2025, 1, 1⟩ r.date && dateLe r.date ⟨2025, 12, 31⟩)) :=
  (filter_conjunction [scenario1Enriched] ["Pune"] [some "Home"]
    ⟨2025, 1, 1⟩ ⟨2025, 12, 31⟩ []).2.1

/-- A record dated 15-Jan-2025, matched by the city/category selections
used in the C5 scenario. -/
def c5Record : EnrichedRecord :=
  ⟨⟨2025, 1, 15⟩, "1", "Pune", "BrandA", some 1, none, none, none, none,
    none, 0⟩

/-- C5, counterexample. With the scenario-5 end-before-start range
`(2025-02-01, 2025-01-01)` the filter block does not reject the spec
before filtering: the two-bound range passes the only validation
(`len(date_range) != 2`, line 156), the filter runs over the record
set, and the generic empty-result branch of line 170 is taken — not an
invalid-spec rejection. -/
theorem endBeforeStart_not_rejected :
    runFilter [c5Record] [⟨2025, 2, 1⟩, ⟨2025, 1, 1⟩] ["Pune"] [none]
        = FilterOutcome.noMatch ∧
    runFilter [c5Record] [⟨2025, 2, 1⟩, ⟨2025, 1, 1⟩] ["Pune"] [none]
        ≠ FilterOutcome.invalidRange := by
  constructor <;> with_unfolding_all decide

/-- C5, amended. A date range with fewer (or more) than two bounds
is rejected before any filtering runs and surfaced as the warning of
line 156; an end-before-start range is *not* specially rejected — the
filter stage runs and, because the inclusive bounds are unsatisfiable,
necessarily yields the empty result, surfaced via the no-match warning
of line 170 (zero rows pass the filter, but the rows are processed). -/
theorem invalidRange_rejection :
    (∀ (df : List EnrichedRecord) (dr : List Date) (cities : List String)
        (cats : List (Option String)), dr.length ≠ 2 →
        runFilter df dr cities cats = FilterOutcome.invalidRange) ∧
    (∀ (df : List EnrichedRecord) (d1 d2 : Date) (cities : List String)
        (cats : List (Option String)), dateLt d2 d1 = true →
        runFilter df [d1, d2] cities cats = FilterOutcome.noMatch) := by
  constructor
  · intro df dr cities cats h
    match dr with
    | [] => rfl
    | [d] => rfl
    | [d1, d2] => simp at h
    | d1 :: d2 :: d3 :: rest => rfl
  · intro df d1 d2 cities cats h
    have hempty : firstStage df cities cats d1 d2 = [] := by
      unfold firstStage
      rw [List.filter_eq_nil_iff]
      intro r _
      intro hc
      simp only [firstStagePred, Bool.and_eq_true] at hc
      obtain ⟨⟨⟨_, _⟩, h1⟩, h2⟩ := hc
      have htr := dateLe_trans h1 h2
      rw [dateLt_not_le h] at htr
      exact Bool.false_ne_true htr
    simp [runFilter, hempty]

/-- Witness for C5 (amended): a one-bound range is rejected up front,
and the scenario-5 reversed range reaches the no-match branch. -/
theorem invalidRange_rejection_witness :
    runFilter [c5Record] [⟨2025, 1, 1⟩] ["Pune"] [none]
        = FilterOutcome.invalidRange ∧
    runFilter [c5Record] [⟨2025, 3, 1⟩, ⟨2025, 1, 2⟩] ["Pune"] [none]
        = FilterOutcome.noMatch :=
  ⟨invalidRange_rejection.1 [c5Record] [⟨2025, 1, 1⟩] ["Pune"] [none]
      (by decide),
   invalidRange_rejection.2 [c5Record] ⟨2025, 3, 1⟩ ⟨2025, 1, 2⟩ ["Pune"]
      [none] (by decide)⟩

theorem sumCol_cons (val : α → ℚ) (a : α) (l : List α) :
    sumCol val (a :: l) = val a + sumCol val l := by
  simp [sumCol]

theorem sumCol_filter_add (val : α → ℚ) (p : α → Bool) (l : List α) :
    sumCol val (l.filter p) + sumCol val (l.filter (fun x => !(p x)))
      = sumCol val l := by
  induction l with
  | nil => simp [sumCol]
  | cons a rest ih =>
    by_cases h : p a = true
    · rw [List.filter_cons_of_pos h, List.filter_cons_of_neg (by simp [h]),
        sumCol_cons, sumCol_cons, add_assoc, ih]
    · rw [List.filter_cons_of_neg (by simpa using h),
        List.filter_cons_of_pos (by simp [h]), sumCol_cons, sumCol_cons,
        add_left_comm, ih]

theorem sumCol_eq_zero {val : α → ℚ} {l : List α} (h : ∀ a ∈ l, val a = 0) :
    sumCol val l = 0 := by
  induction l with
  | nil => rfl
  | cons a rest ih =>
    rw [sumCol_cons, h a (List.mem_cons_self a rest),
      ih (fun x hx => h x (List.mem_cons_of_mem a hx)), add_zero]

theorem sum_groups_eq_sum_filter_isSome {κ : Type} (key : α → Option κ)
    [DecidableEq κ] (val : α → ℚ) :
    ∀ (ks : List κ), ks.Nodup →
    ∀ l : List α, (∀ r ∈ l, ∀ k, key r = some k → k ∈ ks) →
    (ks.map (fun k =>
        sumCol val (l.filter (fun r => key r == some k)))).sum
      = sumCol val (l.filter (fun r => (key r).isSome)) := by
  intro ks
  induction ks with
  | nil =>
    intro _ l hcov
    have hnil : l.filter (fun r => (key r).isSome) = [] := by
      rw [List.filter_eq_nil_iff]
      intro r hr hc
      cases hk : key r with
      | none => rw [hk] at hc; simp at hc
      | some k => exact absurd (hcov r hr k hk) (List.not_mem_nil k)
    simp [hnil, sumCol]
  | cons k ks ih =>
    intro hnd l hcov
    obtain ⟨hk_notmem, hnd'⟩ := List.nodup_cons.mp hnd
    have hQ_P : l.filter (fun r => key r == some k)
        = (l.filter (fun r => (key r).isSome)).filter
            (fun r => key r == some k) := by
      rw [List.filter_filter]
      apply List.filter_congr
      intro a _
      cases hk : key a <;> simp [hk]
    have hl' : (l.filter (fun r => (key r).isSome)).filter
          (fun r => !(key r == some k))
        = (l.filter (fun r => !(key r == some k))).filter
            (fun r => (key r).isSome) := by
      rw [List.filter_filter, List.filter_filter]
      apply List.filter_congr
      intro a _
      cases hk : key a <;> simp [hk, Bool.and_comm]
    have hsplit := sumCol_filter_add val (fun r => key r == some k)
      (l.filter (fun r => (key r).isSome))
    have hmapcg : ks.map (fun k' =>
          sumCol val (l.filter (fun r => key r == some k')))
        = ks.map (fun k' =>
            sumCol val ((l.filter (fun r => !(key r == some k))).filter
              (fun r => key r == some k'))) := by
      apply List.map_congr_left
      intro k' hk'
      congr 1
      rw [List.filter_filter]
      apply List.filter_congr
      intro a _
      cases hk : key a with
      | none => simp
      | some k0 =>
        by_cases h0 : k0 = k'
        · subst h0
          have : ¬ k0 = k := fun e => hk_notmem (e ▸ hk')
          simp [hk, this]
        · simp [hk, h0]
    have hihl' := ih hnd' (l.filter (fun r => !(key r == some k)))
      (by
        intro r hr k' hk'
        have hrl := List.mem_of_mem_filter hr
        have hne : (key r == some k) = false := by
          have := (List.mem_filter.mp hr).2
          simpa using this
        have hk'' := hcov r hrl k' hk'
        rcases List.mem_cons.mp hk'' with h | h
        · exfalso
          rw [h] at hk'
          rw [hk'] at hne
          simp at hne
        · exact h)
    rw [List.map_cons, List.sum_cons, hmapcg, hihl', ← hl', ← hQ_P] at *
    rw [← hsplit]

theorem groupSum_snd_sum {κ : Type} (key : α → Option κ) [DecidableEq κ]
    (val : α → ℚ) (l : List α) :
    ((groupSum key val l).map Prod.snd).sum
      = sumCol val (l.filter (fun r => (key r).isSome)) := by
  unfold groupSum
  rw [List.map_map]
  exact sum_groups_eq_sum_filter_isSome key val _ (List.nodup_dedup _) l
    (fun r hr k hk => List.mem_dedup.mpr (List.mem_filterMap.mpr ⟨r, hr, hk⟩))

theorem groupSum_total_key {κ : Type} (key : α → κ) [DecidableEq κ]
    (val : α → ℚ) (l : List α) :
    ((groupSum (fun r => some (key r)) val l).map Prod.snd).sum
      = sumCol val l := by
  rw [groupSum_snd_sum]
  simp

theorem groupSum_missing_zero {κ : Type} (key : α → Option κ)
    [DecidableEq κ] (val : α → ℚ) (l : List α)
    (h : ∀ r ∈ l, key r = none → val r = 0) :
    ((groupSum key val l).map Prod.snd).sum = sumCol val l := by
  rw [groupSum_snd_sum]
  have hsplit := sumCol_filter_add val (fun r => (key r).isSome) l
  have hz : sumCol val (l.filter (fun r => !(key r).isSome)) = 0 := by
    apply sumCol_eq_zero
    intro a ha
    obtain ⟨hal, hpred⟩ := List.mem_filter.mp ha
    apply h a hal
    cases hk : key a with
    | none => rfl
    | some k => rw [hk] at hpred; simp at hpred
  rw [← hsplit, hz, add_zero]

theorem groupAgg_sales_components {κ : Type} (key : EnrichedRecord → Option κ)
    [DecidableEq κ] (l : List EnrichedRecord) :
    (groupAgg key l).map (fun x => x.2.2)
      = (groupSum key (fun r => r.totalSales) l).map Prod.snd := by
  unfold groupAgg groupSum
  rw [List.map_map, List.map_map]
  rfl

theorem groupAgg_qty_components {κ : Type} (key : EnrichedRecord → Option κ)
    [DecidableEq κ] (l : List EnrichedRecord) :
    (groupAgg key l).map (fun x => x.2.1)
      = (groupSum key (fun r => r.qty.getD 0) l).map Prod.snd := by
  unfold groupAgg groupSum
  rw [List.map_map, List.map_map]
  rfl

theorem mem_matchRows_catNone {s : SalesRecord} {catalog : List ProductRec}
    {e : EnrichedRecord} (h : e ∈ matchRows s catalog)
    (hc : e.categoryName = none) :
    e.salePrice = none ∧ e.productName = none ∧ e.platform = none := by
  unfold matchRows at h
  cases hf : catalog.filter (fun p => p.itemId == s.itemId) with
  | nil =>
    rw [hf] at h
    simp at h
    subst h
    exact ⟨rfl, rfl, rfl⟩
  | cons m ms =>
    rw [hf] at h
    simp only [List.mem_map] at h
    obtain ⟨p, _, rfl⟩ := h
    simp at hc

theorem mem_process_data_unmatched {b : List (List RawSalesRow)}
    {c : List RawProductRow} {e : EnrichedRecord}
    (h : e ∈ process_data b c) (hc : e.categoryName = none) :
    e.salePrice = none ∧ e.productName = none ∧ e.platform = none := by
  obtain ⟨e', he', rfl⟩ := mem_process_data h
  obtain ⟨s, _, hm⟩ := mem_leftJoin_iff.mp he'
  have hc' : e'.categoryName = none := hc
  have h3 := mem_matchRows_catNone hm hc'
  exact ⟨h3.1, h3.2.1, h3.2.2⟩

theorem mem_process_data_totalZero_of_priceNone {b : List (List RawSalesRow)}
    {c : List RawProductRow} {e : EnrichedRecord}
    (h : e ∈ process_data b c) (hp : e.salePrice = none) :
    e.totalSales = 0 := by
  rw [mem_process_data_total h, hp]
  cases e.qty <;> rfl

/-- C7, code bug. The weekly summary is documented (code comment,
line 253, and spec) as Monday-start weeks, but the `Week Start` column
uses `to_period('W-MON')` — pandas weeks *ending* on Monday.  For the
Monday `06-Jan-2025` the code assigns week start `31-Dec-2024`
(a Tuesday), while a Monday-start (ISO) week assignment gives
`06-Jan-2025` itself. -/
theorem weeklyGrouping_monday_bug :
    parseDate "06-Jan-2025" = some ⟨2025, 1, 6⟩ ∧
    Date.weekday ⟨2025, 1, 6⟩ = 0 ∧
    weekStartCode ⟨2025, 1, 6⟩ = Date.dayNumber ⟨2024, 12, 31⟩ ∧
    Date.weekday ⟨2024, 12, 31⟩ = 1 ∧
    mondayStart ⟨2025, 1, 6⟩ = Date.dayNumber ⟨2025, 1, 6⟩ ∧
    weekStartCode ⟨2025, 1, 6⟩ ≠ mondayStart ⟨2025, 1, 6⟩ := by
  refine ⟨?_, ?_, ?_, ?_, ?_, ?_⟩ <;> decide

/-- A February 2025 record (chronologically first). -/
def monthDemoFeb : EnrichedRecord :=
  ⟨⟨2025, 2, 10⟩, "1", "Pune", "BrandA", some 1, none, none, none, none,
    none, 5⟩

/-- An August 2025 record (chronologically second, lexically first). -/
def monthDemoAug : EnrichedRecord :=
  ⟨⟨2025, 8, 3⟩, "1", "Pune", "BrandA", some 2, none, none, none, none,
    none, 7⟩

/-- C8. The monthly summary groups records by the
`"<month name> <year>"` label (`strftime('%B %Y')`, line 248) — one
output row per distinct label — and the rows are sorted by that label
lexically (`sort_values(by='Month Name')`, line 250), not
chronologically: the August 2025 record sorts before the February 2025
one although its date is later. -/
theorem monthlySummary_lexical_sort :
    (∀ l : List EnrichedRecord,
        ((monthlySummary l).map Prod.fst).Sorted strLe ∧
        ((monthlySummary l).map Prod.fst).Perm
          ((l.map (fun r => monthLabel r.date)).dedup)) ∧
    monthlySummary [monthDemoFeb, monthDemoAug]
      = [("August 2025", 2, 7), ("February 2025", 1, 5)] ∧
    dateLt monthDemoFeb.date monthDemoAug.date = true := by
  refine ⟨?_, ?_, by decide⟩
  · intro l
    have hmap : (monthlySummary l).map Prod.fst
        = ((groupAgg (fun r => some (monthLabel r.date)) l).map
            Prod.fst).insertionSort strLe := by
      unfold monthlySummary
      rw [List.map_map]
      exact List.map_id _
    constructor
    · rw [hmap]
      exact List.sorted_insertionSort strLe _
    · have hkeys : (groupAgg (fun r => some (monthLabel r.date)) l).map
            Prod.fst
          = (l.map (fun r => monthLabel r.date)).dedup := by
        have h2 : l.filterMap (fun r => some (monthLabel r.date))
            = l.map (fun r => monthLabel r.date) :=
          congrFun (List.filterMap_eq_map
            (fun (r : EnrichedRecord) => monthLabel r.date)) l
        unfold groupAgg
        rw [List.map_map, h2]
        exact List.map_id _
      rw [hmap, hkeys]
      exact List.perm_insertionSort strLe _
  · with_unfolding_all rfl

/-- Witness for C8: the sortedness of a concrete monthly summary,
via the theorem. -/
theorem monthlySummary_lexical_sort_witness :
    ((monthlySummary [monthDemoFeb, monthDemoAug]).map Prod.fst).Sorted
      strLe :=
  (monthlySummary_lexical_sort.1 [monthDemoFeb, monthDemoAug]).1

/-- C9, counterexample. The CSV export (line 272) serializes the full
`table_df`, which at that point carries the derived columns added for
tables 5-6: its header is not exactly the EnrichedRecord field list. -/
theorem csvHeader_extra_columns :
    csvHeaderFields ≠ enrichedFieldNames ∧
    "Month Name" ∈ csvHeaderFields ∧ "Month Name" ∉ enrichedFieldNames := by
  refine ⟨?_, ?_, ?_⟩ <;> decide

/-- C9, amended. The CSV export's header row consists of the
EnrichedRecord field names (`Date, Item Id, City, Brand, Qty,
Product Name, Category Name, Sub-Category Name, Sale Price, Platform,
Total Sales`, in order) followed by the three derived columns
`Month Name`, `Week Start`, `Month Week` added for the monthly and
weekly tables before the export (lines 248-256); the text is UTF-8
encoded (`encode('utf-8')`, line 272). -/
theorem csvHeader_fields :
    csvHeaderFields
      = enrichedFieldNames ++ ["Month Name", "Week Start", "Month Week"] := by
  decide

theorem filterMap_filter_of_imp {κ : Type} (key : α → Option κ)
    (p : α → Bool) (l : List α)
    (h : ∀ r, (key r).isSome → p r = true) :
    (l.filter p).filterMap key = l.filterMap key := by
  induction l with
  | nil => rfl
  | cons a rest ih =>
    by_cases hp : p a = true
    · rw [List.filter_cons_of_pos hp, List.filterMap_cons,
        List.filterMap_cons, ih]
    · have hka : key a = none := by
        cases hk : key a with
        | none => rfl
        | some k => exact absurd (h a (by simp [hk])) hp
      rw [List.filter_cons_of_neg (by simpa using hp), List.filterMap_cons,
        hka, ih]

theorem filter_filter_of_imp (p q : α → Bool) (l : List α)
    (h : ∀ r, q r = true → p r = true) :
    (l.filter p).filter q = l.filter q := by
  rw [List.filter_filter]
  apply List.filter_congr
  intro a _
  by_cases hq : q a = true
  · simp [hq, h a hq]
  · simp [hq]

theorem groupSum_drop_noneKey {κ : Type} [DecidableEq κ]
    (key : α → Option κ) (val : α → ℚ) (l : List α) :
    groupSum key val (l.filter (fun r => (key r).isSome))
      = groupSum key val l := by
  unfold groupSum
  rw [filterMap_filter_of_imp key _ l (fun r hr => by simpa using hr)]
  apply List.map_congr_left
  intro k _
  have hfil : (l.filter (fun r => (key r).isSome)).filter
        (fun r => key r == some k)
      = l.filter (fun r => key r == some k) := by
    apply filter_filter_of_imp
    intro r hr
    cases hk : key r
    · rw [hk] at hr; simp at hr
    · simp
  rw [hfil]

theorem groupAgg_drop_noneKey {κ : Type} [DecidableEq κ]
    (key : EnrichedRecord → Option κ) (l : List EnrichedRecord) :
    groupAgg key (l.filter (fun r => (key r).isSome)) = groupAgg key l := by
  unfold groupAgg
  rw [filterMap_filter_of_imp key _ l (fun r hr => by simpa using hr)]
  apply List.map_congr_left
  intro k _
  have hfil : (l.filter (fun r => (key r).isSome)).filter
        (fun r => key r == some k)
      = l.filter (fun r => key r == some k) :=
    filter_filter_of_imp _ _ l
      (fun r hr => by cases hk : key r <;> simp [hk] at hr ⊢)
  rw [hfil]

theorem pivotCombined_drop_noneKey (l : List EnrichedRecord) :
    pivotCombined (l.filter
        (fun r => r.productName.isSome || r.platform.isSome))
      = pivotCombined l := by
  unfold pivotCombined
  have hrow : (List.filterMap (fun x => x.productName)
        (l.filter (fun r => r.productName.isSome || r.platform.isSome))).dedup
      = (List.filterMap (fun x => x.productName) l).dedup := by
    congr 1
    apply filterMap_filter_of_imp
    intro r hr
    simp [hr]
  have hcol : (List.filterMap (fun x => x.platform)
        (l.filter (fun r => r.productName.isSome || r.platform.isSome))).dedup
      = (List.filterMap (fun x => x.platform) l).dedup := by
    congr 1
    apply filterMap_filter_of_imp
    intro r hr
    simp [hr]
  have hcell : ∀ pn pl,
      pivotCell (l.filter
        (fun r => r.productName.isSome || r.platform.isSome)) pn pl
      = pivotCell l pn pl := by
    intro pn pl
    unfold pivotCell
    have hfil : (l.filter
          (fun r => r.productName.isSome || r.platform.isSome)).filter
          (fun r => r.productName == some pn && r.platform == some pl)
        = l.filter
            (fun r => r.productName == some pn && r.platform == some pl) := by
      apply filter_filter_of_imp
      intro r hr
      have h1 : r.productName = some pn := by
        have h2 := (Bool.and_eq_true _ _).mp hr
        simpa using h2.1
      simp [h1]
    rw [hfil]
  rw [hrow, hcol]
  apply List.map_congr_left
  intro pn _
  congr 1
  apply List.map_congr_left
  intro pl _
  rw [hcell]

/-- A sales row whose itemId `77` has no catalog entry. -/
def unmatchedRow : RawSalesRow :=
  ⟨"03-Jan-2025", .s "77", "Pune", "BrandA", .s "4"⟩

/-- The enriched record for `unmatchedRow`: all catalog fields null,
`totalSales = 0`. -/
def unmatchedEnriched : EnrichedRecord :=
  ⟨⟨2025, 1, 3⟩, "77", "Pune", "BrandA", some 4, none, none, none, none,
    none, 0⟩

/-- C10, counterexample. An enriched record with no catalog match
contributes a row to the brand view and counts toward the KPIs, but the
By Platform view drops it too: its `Platform` comes from the catalog
join and is null, and `groupby('Platform')` excludes null keys — so it
does not contribute to the platform view, contrary to the claim. -/
theorem platformView_drops_unmatched :
    process_data [[unmatchedRow]] [] = [unmatchedEnriched] ∧
    unmatchedEnriched.categoryName = none ∧
    platformSummary [unmatchedEnriched] = [] ∧
    brandSummary [unmatchedEnriched] = [("BrandA", 4, 0)] ∧
    kpiTotalOrders [unmatchedEnriched] = 1 := by
  refine ⟨?_, rfl, ?_, ?_, rfl⟩ <;> with_unfolding_all rfl

/-- C10, amended. Enriched records with no catalog match (null
`Product Name` / `Category Name`) are silently dropped from every
grouped view keyed on a catalog attribute — By Category, By SKU, the
SKU×Platform matrix, *and* By Platform, since `Platform` is also
attached from the catalog and is null for them; grouping and pivoting
exclude rows with a null group key (dropping such rows changes none of
these views).  Such records still count toward the KPIs and contribute
to the city, brand, and time views (their full sales sums include every
record). -/
theorem nullKey_grouping :
    (∀ (b : List (List RawSalesRow)) (c : List RawProductRow)
        (e : EnrichedRecord), e ∈ process_data b c →
        e.categoryName = none →
        e.productName = none ∧ e.platform = none ∧ e.salePrice = none ∧
          e.totalSales = 0) ∧
    (∀ l : List EnrichedRecord,
        categorySales (l.filter (fun r => r.categoryName.isSome))
            = categorySales l ∧
        skuSummary (l.filter (fun r => r.productName.isSome))
            = skuSummary l ∧
        platformSummary (l.filter (fun r => r.platform.isSome))
            = platformSummary l ∧
        pivotCombined (l.filter
            (fun r => r.productName.isSome || r.platform.isSome))
            = pivotCombined l) ∧
    (∀ l : List EnrichedRecord,
        kpiTotalOrders l = l.length ∧
        ((citySales l).map Prod.snd).sum = kpiTotalSales l ∧
        ((brandSummary l).map (fun x => x.2.2)).sum = kpiTotalSales l ∧
        ((timeSales l).map Prod.snd).sum = kpiTotalSales l) := by
  refine ⟨?_, ?_, ?_⟩
  · intro b c e he hc
    obtain ⟨h1, h2, h3⟩ := mem_process_data_unmatched he hc
    exact ⟨h2, h3, h1, mem_process_data_totalZero_of_priceNone he h1⟩
  · intro l
    exact ⟨groupSum_drop_noneKey _ _ l, groupAgg_drop_noneKey _ l,
      groupAgg_drop_noneKey _ l, pivotCombined_drop_noneKey l⟩
  · intro l
    refine ⟨rfl, ?_, ?_, ?_⟩
    · exact groupSum_total_key (fun (r : EnrichedRecord) => r.city)
        (fun r => r.totalSales) l
    · unfold brandSummary
      rw [groupAgg_sales_components]
      exact groupSum_total_key (fun (r : EnrichedRecord) => r.brand)
        (fun r => r.totalSales) l
    · exact groupSum_total_key (fun (r : EnrichedRecord) => r.date)
        (fun r => r.totalSales) l

/-- Witness for C10 (amended): the unmatched-coherence conjunct
evaluated on the concrete unmatched record. -/
theorem nullKey_grouping_witness :
    unmatchedEnriched.productName = none ∧
    unmatchedEnriched.platform = none ∧
    unmatchedEnriched.salePrice = none ∧
    unmatchedEnriched.totalSales = 0 :=
  nullKey_grouping.1 [[unmatchedRow]] [] unmatchedEnriched
    (by with_unfolding_all decide) rfl

theorem sumCol_filter_isSome_eq {κ : Type} (key : α → Option κ)
    (val : α → ℚ) (l : List α) (h : ∀ r ∈ l, key r = none → val r = 0) :
    sumCol val (l.filter (fun r => (key r).isSome)) = sumCol val l := by
  have hsplit := sumCol_filter_add val (fun r => (key r).isSome) l
  have hz : sumCol val (l.filter (fun r => !(key r).isSome)) = 0 := by
    apply sumCol_eq_zero
    intro a ha
    obtain ⟨hal, hpred⟩ := List.mem_filter.mp ha
    apply h a hal
    cases hk : key a with
    | none => rfl
    | some k => rw [hk] at hpred; simp at hpred
  rw [← hsplit, hz, add_zero]

theorem mem_matchRows_shape {s : SalesRecord} {catalog : List ProductRec}
    {e : EnrichedRecord} (h : e ∈ matchRows s catalog) :
    (e.productName = none ∧ e.categoryName = none ∧ e.platform = none ∧
      e.salePrice = none) ∨
    (e.productName.isSome = true ∧ e.categoryName.isSome = true ∧
      e.platform.isSome = true) := by
  unfold matchRows at h
  cases hf : catalog.filter (fun p => p.itemId == s.itemId) with
  | nil =>
    rw [hf] at h
    simp at h
    subst h
    exact Or.inl ⟨rfl, rfl, rfl, rfl⟩
  | cons m ms =>
    rw [hf] at h
    simp only [List.mem_map] at h
    obtain ⟨p, _, rfl⟩ := h
    exact Or.inr ⟨rfl, rfl, rfl⟩

theorem mem_process_data_shape {b : List (List RawSalesRow)}
    {c : List RawProductRow} {e : EnrichedRecord}
    (h : e ∈ process_data b c) :
    (e.productName = none ∧ e.categoryName = none ∧ e.platform = none ∧
      e.salePrice = none ∧ e.totalSales = 0) ∨
    (e.productName.isSome = true ∧ e.categoryName.isSome = true ∧
      e.platform.isSome = true) := by
  obtain ⟨e', he', rfl⟩ := mem_process_data h
  obtain ⟨s, _, hm⟩ := mem_leftJoin_iff.mp he'
  rcases mem_matchRows_shape hm with ⟨h1, h2, h3, h4⟩ | hr
  · left
    refine ⟨h1, h2, h3, h4, ?_⟩
    show totalOf e'.qty e'.salePrice = 0
    rw [h4]
    cases e'.qty <;> rfl
  · exact Or.inr hr

theorem monthKeys_eq (l : List EnrichedRecord) :
    (groupAgg (fun r => some (monthLabel r.date)) l).map Prod.fst
      = (l.map (fun r => monthLabel r.date)).dedup := by
  have h2 : l.filterMap (fun r => some (monthLabel r.date))
      = l.map (fun r => monthLabel r.date) :=
    congrFun (List.filterMap_eq_map
      (fun (r : EnrichedRecord) => monthLabel r.date)) l
  unfold groupAgg
  rw [List.map_map, h2]
  exact List.map_id _

theorem monthly_sales_sum (l : List EnrichedRecord) :
    ((monthlySummary l).map (fun x => x.2.2)).sum = kpiTotalSales l := by
  unfold monthlySummary
  rw [List.map_map]
  have hperm : ((((groupAgg (fun r => some (monthLabel r.date)) l).map
        Prod.fst).insertionSort strLe).map
        (fun k => sumCol (fun r => r.totalSales)
          (l.filter (fun r => monthLabel r.date == k)))).sum
      = (((groupAgg (fun r => some (monthLabel r.date)) l).map
          Prod.fst).map
          (fun k => sumCol (fun r => r.totalSales)
            (l.filter (fun r => monthLabel r.date == k)))).sum :=
    ((List.perm_insertionSort strLe _).map _).sum_eq
  rw [show (((groupAgg (fun r => some (monthLabel r.date)) l).map
        Prod.fst).insertionSort strLe).map
        ((fun x => x.2.2) ∘ fun k =>
          (k, sumCol (fun r => r.qty.getD 0)
                (l.filter (fun r => monthLabel r.date == k)),
            sumCol (fun r => r.totalSales)
              (l.filter (fun r => monthLabel r.date == k))))
      = (((groupAgg (fun r => some (monthLabel r.date)) l).map
          Prod.fst).insertionSort strLe).map
          (fun k => sumCol (fun r => r.totalSales)
            (l.filter (fun r => monthLabel r.date == k))) from rfl]
  rw [hperm, monthKeys_eq]
  have hmain := sum_groups_eq_sum_filter_isSome
    (fun (r : EnrichedRecord) => some (monthLabel r.date))
    (fun r => r.totalSales) ((l.map (fun r => monthLabel r.date)).dedup)
    (List.nodup_dedup _) l
    (fun r hr k hk => by
      rw [List.mem_dedup]
      exact List.mem_map.mpr ⟨r, hr, Option.some_injective _ hk⟩)
  have hfin : l.filter
      (fun r => ((fun (r : EnrichedRecord) =>
        some (monthLabel r.date)) r).isSome) = l :=
    List.filter_eq_self.mpr (fun a _ => rfl)
  rw [hfin] at hmain
  exact hmain

theorem weekly_sales_sum (l : List EnrichedRecord) :
    ((weeklySummary l).map (fun x => x.2.2)).sum = kpiTotalSales l := by
  unfold weeklySummary
  have hperm : (((groupAgg (fun r =>
        some (monthWeekLabel r.date, weekStartCode r.date)) l).insertionSort
          (fun a b => a.1.2 ≤ b.1.2)).map (fun x => x.2.2)).sum
      = ((groupAgg (fun r =>
          some (monthWeekLabel r.date, weekStartCode r.date)) l).map
          (fun x => x.2.2)).sum :=
    ((List.perm_insertionSort _ _).map _).sum_eq
  rw [hperm, groupAgg_sales_components]
  exact groupSum_total_key
    (fun (r : EnrichedRecord) => (monthWeekLabel r.date, weekStartCode r.date))
    (fun r => r.totalSales) l

theorem pivot_sales_sum (l : List EnrichedRecord)
    (himp : ∀ r ∈ l, r.productName.isSome = true → r.platform.isSome = true)
    (hzero : ∀ r ∈ l, r.productName = none → r.totalSales = 0) :
    ((pivotCombined l).map
        (fun row => ((row.2.map (fun c => c.2.2)).sum))).sum
      = kpiTotalSales l := by
  unfold pivotCombined
  rw [List.map_map]
  have hrow : ∀ pn,
      ((fun (row : String × List (String × ℚ × ℚ)) =>
          ((row.2.map (fun c => c.2.2)).sum)) ∘
        (fun pn => (pn, (l.filterMap (fun x => x.platform)).dedup.map
          (fun pl => (pl, pivotCell l pn pl))))) pn
      = sumCol (fun r => r.totalSales)
          (l.filter (fun r => r.productName == some pn)) := by
    intro pn
    show (((l.filterMap (fun x => x.platform)).dedup.map
        (fun pl => (pl, pivotCell l pn pl))).map (fun c => c.2.2)).sum
      = sumCol (fun r => r.totalSales)
          (l.filter (fun r => r.productName == some pn))
    rw [List.map_map]
    have hcell : ∀ pl ∈ (l.filterMap (fun x => x.platform)).dedup,
        ((fun (c : String × ℚ × ℚ) => c.2.2) ∘
          (fun pl => (pl, pivotCell l pn pl))) pl
        = sumCol (fun r => r.totalSales)
            ((l.filter (fun r => r.productName == some pn)).filter
              (fun r => r.platform == some pl)) := by
      intro pl _
      show (pivotCell l pn pl).2
        = sumCol (fun r => r.totalSales)
            ((l.filter (fun r => r.productName == some pn)).filter
              (fun r => r.platform == some pl))
      show sumCol (fun r => r.totalSales)
          (l.filter (fun r =>
            r.productName == some pn && r.platform == some pl)) = _
      congr 1
      rw [List.filter_filter]
      apply List.filter_congr
      intro a _
      exact Bool.and_comm _ _
    rw [List.map_congr_left hcell]
    have hmain : (((l.filterMap (fun x => x.platform)).dedup).map
          (fun pl => sumCol (fun r => r.totalSales)
            ((l.filter (fun r => r.productName == some pn)).filter
              (fun r => r.platform == some pl)))).sum
        = sumCol (fun r => r.totalSales)
            ((l.filter (fun r => r.productName == some pn)).filter
              (fun r => r.platform.isSome)) :=
      sum_groups_eq_sum_filter_isSome
        (fun (r : EnrichedRecord) => r.platform) (fun r => r.totalSales)
        ((l.filterMap (fun x => x.platform)).dedup) (List.nodup_dedup _)
        (l.filter (fun r => r.productName == some pn))
        (fun r hr k hk => List.mem_dedup.mpr
          (List.mem_filterMap.mpr ⟨r, List.mem_of_mem_filter hr, hk⟩))
    rw [hmain]
    congr 1
    apply List.filter_eq_self.mpr
    intro a ha
    apply himp a (List.mem_of_mem_filter ha)
    have hpa := (List.mem_filter.mp ha).2
    cases hp : a.productName with
    | none => rw [hp] at hpa; simp at hpa
    | some v => rfl
  rw [List.map_congr_left (fun pn _ => hrow pn)]
  have houter : (((l.filterMap (fun x => x.productName)).dedup).map
        (fun pn => sumCol (fun r => r.totalSales)
          (l.filter (fun r => r.productName == some pn)))).sum
      = sumCol (fun r => r.totalSales)
          (l.filter (fun r => r.productName.isSome)) :=
    sum_groups_eq_sum_filter_isSome
      (fun (r : EnrichedRecord) => r.productName) (fun r => r.totalSales)
      ((l.filterMap (fun x => x.productName)).dedup) (List.nodup_dedup _) l
      (fun r hr k hk => List.mem_dedup.mpr
        (List.mem_filterMap.mpr ⟨r, hr, hk⟩))
  rw [houter]
  have hfin : sumCol (fun r => r.totalSales)
        (l.filter (fun r => r.productName.isSome))
      = sumCol (fun r => r.totalSales) l :=
    sumCol_filter_isSome_eq (fun (r : EnrichedRecord) => r.productName)
      (fun r => r.totalSales) l hzero
  exact hfin

theorem conservation_all_views (l : List EnrichedRecord)
    (hshape : ∀ r ∈ l,
      (r.productName = none ∧ r.categoryName = none ∧ r.platform = none ∧
        r.salePrice = none ∧ r.totalSales = 0) ∨
      (r.productName.isSome = true ∧ r.categoryName.isSome = true ∧
        r.platform.isSome = true)) :
    ((citySales l).map Prod.snd).sum = kpiTotalSales l ∧
    ((categorySales l).map Prod.snd).sum = kpiTotalSales l ∧
    ((skuSummary l).map (fun x => x.2.2)).sum = kpiTotalSales l ∧
    ((platformSummary l).map (fun x => x.2.2)).sum = kpiTotalSales l ∧
    ((brandSummary l).map (fun x => x.2.2)).sum = kpiTotalSales l ∧
    ((citySummary l).map (fun x => x.2.2)).sum = kpiTotalSales l ∧
    ((timeSales l).map Prod.snd).sum = kpiTotalSales l ∧
    ((monthlySummary l).map (fun x => x.2.2)).sum = kpiTotalSales l ∧
    ((weeklySummary l).map (fun x => x.2.2)).sum = kpiTotalSales l ∧
    ((pivotCombined l).map
        (fun row => ((row.2.map (fun c => c.2.2)).sum))).sum
      = kpiTotalSales l := by
  have hprodz : ∀ r ∈ l, r.productName = none → r.totalSales = 0 := by
    intro r hr hp
    rcases hshape r hr with ⟨_, _, _, _, h5⟩ | ⟨h1, _, _⟩
    · exact h5
    · rw [hp] at h1; simp at h1
  have hcatz : ∀ r ∈ l, r.categoryName = none → r.totalSales = 0 := by
    intro r hr hp
    rcases hshape r hr with ⟨_, _, _, _, h5⟩ | ⟨_, h2, _⟩
    · exact h5
    · rw [hp] at h2; simp at h2
  have hplatz : ∀ r ∈ l, r.platform = none → r.totalSales = 0 := by
    intro r hr hp
    rcases hshape r hr with ⟨_, _, _, _, h5⟩ | ⟨_, _, h3⟩
    · exact h5
    · rw [hp] at h3; simp at h3
  have himp : ∀ r ∈ l, r.productName.isSome = true →
      r.platform.isSome = true := by
    intro r hr hp
    rcases hshape r hr with ⟨h1, _, _, _, _⟩ | ⟨_, _, h3⟩
    · rw [h1] at hp; simp at hp
    · exact h3
  refine ⟨?_, ?_, ?_, ?_, ?_, ?_, ?_, monthly_sales_sum l,
    weekly_sales_sum l, pivot_sales_sum l himp hprodz⟩
  · exact groupSum_total_key (fun (r : EnrichedRecord) => r.city)
      (fun r => r.totalSales) l
  · apply groupSum_missing_zero
    exact hcatz
  · unfold skuSummary
    rw [groupAgg_sales_components]
    apply groupSum_missing_zero
    exact hprodz
  · unfold platformSummary
    rw [groupAgg_sales_components]
    apply groupSum_missing_zero
    exact hplatz
  · unfold brandSummary
    rw [groupAgg_sales_components]
    exact groupSum_total_key (fun (r : EnrichedRecord) => r.brand)
      (fun r => r.totalSales) l
  · unfold citySummary
    rw [groupAgg_sales_components]
    exact groupSum_total_key (fun (r : EnrichedRecord) => r.city)
      (fun r => r.totalSales) l
  · exact groupSum_total_key (fun (r : EnrichedRecord) => r.date)
      (fun r => r.totalSales) l

/-- C6. For every working subset, the sum of the per-group sales sums
across all groups of a grouping view equals the `totalSales` scalar KPI
computed on the same subset, for every grouping dimension: By City and
By Category on the first-stage working subset `filtered_df`
(lines 177, 193, 199), and By SKU, By Platform, By Brand, By Location,
the daily time series, the monthly and weekly summaries, and the
SKU×Platform matrix on its platform-filtered subset `table_df`
(lines 209-263).  Groupings keyed on catalog attributes drop null-key
rows, but on pipeline outputs those rows carry `totalSales = 0`, so the
identity holds for every dimension. -/
theorem aggregation_conservation :
    ∀ (b : List (List RawSalesRow)) (c : List RawProductRow)
      (cities : List String) (cats : List (Option String)) (d1 d2 : Date)
      (platforms : List (Option String)),
      ((citySales (firstStage (process_data b c) cities cats d1 d2)).map
          Prod.snd).sum
        = kpiTotalSales (firstStage (process_data b c) cities cats d1 d2) ∧
      ((categorySales (firstStage (process_data b c) cities cats d1 d2)).map
          Prod.snd).sum
        = kpiTotalSales (firstStage (process_data b c) cities cats d1 d2) ∧
      ((skuSummary (secondStage
            (firstStage (process_data b c) cities cats d1 d2) platforms)).map
          (fun x => x.2.2)).sum
        = kpiTotalSales (secondStage
            (firstStage (process_data b c) cities cats d1 d2) platforms) ∧
      ((platformSummary (secondStage
            (firstStage (process_data b c) cities cats d1 d2) platforms)).map
          (fun x => x.2.2)).sum
        = kpiTotalSales (secondStage
            (firstStage (process_data b c) cities cats d1 d2) platforms) ∧
      ((brandSummary (secondStage
            (firstStage (process_data b c) cities cats d1 d2) platforms)).map
          (fun x => x.2.2)).sum
        = kpiTotalSales (secondStage
            (firstStage (process_data b c) cities cats d1 d2) platforms) ∧
      ((citySummary (secondStage
            (firstStage (process_data b c) cities cats d1 d2) platforms)).map
          (fun x => x.2.2)).sum
        = kpiTotalSales (secondStage
            (firstStage (process_data b c) cities cats d1 d2) platforms) ∧
      ((timeSales (secondStage
            (firstStage (process_data b c) cities cats d1 d2) platforms)).map
          Prod.snd).sum
        = kpiTotalSales (secondStage
            (firstStage (process_data b c) cities cats d1 d2) platforms) ∧
      ((monthlySummary (secondStage
            (firstStage (process_data b c) cities cats d1 d2) platforms)).map
          (fun x => x.2.2)).sum
        = kpiTotalSales (secondStage
            (firstStage (process_data b c) cities cats d1 d2) platforms) ∧
      ((weeklySummary (secondStage
            (firstStage (process_data b c) cities cats d1 d2) platforms)).map
          (fun x => x.2.2)).sum
        = kpiTotalSales (secondStage
            (firstStage (process_data b c) cities cats d1 d2) platforms) ∧
      ((pivotCombined (secondStage
            (firstStage (process_data b c) cities cats d1 d2) platforms)).map
          (fun row => ((row.2.map (fun c => c.2.2)).sum))).sum
        = kpiTotalSales (secondStage
            (firstStage (process_data b c) cities cats d1 d2) platforms) := by
  intro b c cities cats d1 d2 platforms
  have hshape_f : ∀ r ∈ firstStage (process_data b c) cities cats d1 d2,
      (r.productName = none ∧ r.categoryName = none ∧ r.platform = none ∧
        r.salePrice = none ∧ r.totalSales = 0) ∨
      (r.productName.isSome = true ∧ r.categoryName.isSome = true ∧
        r.platform.isSome = true) :=
    fun r hr => mem_process_data_shape (List.mem_of_mem_filter hr)
  have hshape_t : ∀ r ∈ secondStage
      (firstStage (process_data b c) cities cats d1 d2) platforms,
      (r.productName = none ∧ r.categoryName = none ∧ r.platform = none ∧
        r.salePrice = none ∧ r.totalSales = 0) ∨
      (r.productName.isSome = true ∧ r.categoryName.isSome = true ∧
        r.platform.isSome = true) :=
    fun r hr => mem_process_data_shape
      (List.mem_of_mem_filter (List.mem_of_mem_filter hr))
  obtain ⟨hf1, hf2, -, -, -, -, -, -, -, -⟩ := conservation_all_views _ hshape_f
  obtain ⟨-, -, ht3, ht4, ht5, ht6, ht7, ht8, ht9, ht10⟩ :=
    conservation_all_views _ hshape_t
  exact ⟨hf1, hf2, ht3, ht4, ht5, ht6, ht7, ht8, ht9, ht10⟩

/-- Witness for C6 on a concrete working subset: the By City identity
on the first-stage subset and the By SKU identity on the
platform-filtered subset of the scenario-1 pipeline output, by applying
the theorem. -/
theorem aggregation_conservation_witness :
    ((citySales (firstStage (process_data [[scenario1Row]] [scenario1Cat])
        ["Pune"] [some "Home"] ⟨2025, 1, 1⟩ ⟨2025, 12, 31⟩)).map
          Prod.snd).sum
      = kpiTotalSales (firstStage (process_data [[scenario1Row]] [scenario1Cat])
          ["Pune"] [some "Home"] ⟨2025, 1, 1⟩ ⟨2025, 12, 31⟩) ∧
    ((skuSummary (secondStage
        (firstStage (process_data [[scenario1Row]] [scenario1Cat])
          ["Pune"] [some "Home"] ⟨2025, 1, 1⟩ ⟨2025, 12, 31⟩)
        [some "Amazon"])).map (fun x => x.2.2)).sum
      = kpiTotalSales (secondStage
          (firstStage (process_data [[scenario1Row]] [scenario1Cat])
            ["Pune"] [some "Home"] ⟨2025, 1, 1⟩ ⟨2025, 12, 31⟩)
          [some "Amazon"]) :=
  ⟨(aggregation_conservation [[scenario1Row]] [scenario1Cat] ["Pune"]
      [some "Home"] ⟨2025, 1, 1⟩ ⟨2025, 12, 31⟩ [some "Amazon"]).1,
   (aggregation_conservation [[scenario1Row]] [scenario1Cat] ["Pune"]
      [some "Home"] ⟨2025, 1, 1⟩ ⟨2025, 12, 31⟩ [some "Amazon"]).2.2.1⟩
